import Mathlib

/-!
# Verification of the deterministic procedural virus generator

Shallow embedding of the trait-derivation and rendering-layout code of the
repository (`src/components/Virus3D.tsx`, `src/unnamed/part_004`,
`src/unnamed/part_005`, `src/components/ViralStrainApp.tsx`,
`src/app/view-3d/page.tsx`).

Machine integers are modelled as `Nat` with explicit `% 2 ^ w` where overflow
matters.  JavaScript `BigInt` values produced from in-range token ids are
non-negative integers and are modelled as `Nat`; JavaScript numbers (inputs
that may be fractional or negative) are modelled as `ℚ`.  The keccak256 hash
used through the `viem` library is implemented concretely below (Keccak-256,
rate 1088, padding `0x01 … 0x80`), following the Keccak reference
specification; `viem`'s `encodePacked(['uint256','uint256','string'], …)` is
modelled as two 32-byte big-endian words followed by the UTF-8 bytes of the
string, which is `abi.encodePacked`'s packed encoding.
-/

/-! ## Keccak-256 -/

/-- 64-bit left rotation.  Operands are kept below `2 ^ 64`. -/
def rotl64 (x n : Nat) : Nat :=
  ((x <<< n) % 2 ^ 64) ||| (x >>> (64 - n))

/-- The 24 round constants of Keccak-f[1600]. -/
def keccakRC : List Nat :=
  [1, 32898, 9223372036854808714,
   9223372039002292224, 32907, 2147483649,
   9223372039002292353, 9223372036854808585, 138,
   136, 2147516425, 2147483658,
   2147516555, 9223372036854775947, 9223372036854808713,
   9223372036854808579, 9223372036854808578, 9223372036854775936,
   32778, 9223372039002259466, 9223372039002292353,
   9223372036854808704, 2147483649, 9223372039002292232]

/-- Rotation offsets of the ρ step, indexed by `x + 5 * y`
(rows `y = 0, 1` first, then rows `y = 2, 3, 4`). -/
def keccakRho : List Nat :=
  [0, 1, 62, 28, 27,
   36, 44, 6, 55, 20] ++
  [3, 10, 43, 25, 39,
   41, 45, 15, 21, 8,
   18, 2, 61, 56, 14]

/-- Lane `(x, y)` of a 25-lane state stored as a list indexed by `x + 5 * y`. -/
def lane (st : List Nat) (x y : Nat) : Nat :=
  st.getD (x % 5 + 5 * (y % 5)) 0

/-- θ step of Keccak-f[1600]. -/
def keccakTheta (st : List Nat) : List Nat :=
  let c : Nat → Nat := fun x =>
    lane st x 0 ^^^ lane st x 1 ^^^ lane st x 2 ^^^ lane st x 3 ^^^ lane st x 4
  let d : Nat → Nat := fun x => c ((x + 4) % 5) ^^^ rotl64 (c ((x + 1) % 5)) 1
  (List.range 25).map (fun i => st.getD i 0 ^^^ d (i % 5))

/-- Combined ρ and π steps: output lane `(X, Y)` is the input lane
`(X + 3 Y, X)` rotated by its ρ offset. -/
def keccakRhoPi (st : List Nat) : List Nat :=
  (List.range 25).map (fun i =>
    let bigX := i % 5
    let bigY := i / 5
    let x := (bigX + 3 * bigY) % 5
    let y := bigX
    rotl64 (lane st x y) (keccakRho.getD (x + 5 * y) 0))

/-- χ step of Keccak-f[1600]; complement is XOR against the all-ones lane. -/
def keccakChi (st : List Nat) : List Nat :=
  (List.range 25).map (fun i =>
    let x := i % 5
    let y := i / 5
    lane st x y ^^^ ((lane st (x + 1) y ^^^ (2 ^ 64 - 1)) &&& lane st (x + 2) y))

/-- ι step: XOR the round constant into lane (0,0). -/
def keccakIota (st : List Nat) (r : Nat) : List Nat :=
  match st with
  | [] => []
  | a :: rest => (a ^^^ keccakRC.getD r 0) :: rest

/-- One round of Keccak-f[1600]. -/
def keccakRound (st : List Nat) (r : Nat) : List Nat :=
  keccakIota (keccakChi (keccakRhoPi (keccakTheta st))) r

/-- The full 24-round Keccak-f[1600] permutation. -/
def keccakF (st : List Nat) : List Nat :=
  (List.range 24).foldl keccakRound st

/-- Multi-rate padding `pad10*1` with Keccak domain byte `0x01`,
for rate 136 bytes. -/
def keccakPad (msg : List Nat) : List Nat :=
  let padLen := 136 - msg.length % 136
  if padLen = 1 then msg ++ [0x81]
  else msg ++ [0x01] ++ List.replicate (padLen - 2) 0 ++ [0x80]

/-- Assemble 8 bytes (little-endian) into one 64-bit lane. -/
def bytesToLane (bs : List Nat) : Nat :=
  bs.foldr (fun b acc => acc * 256 + b) 0

/-- The 17 lanes of one 136-byte block, little-endian within each lane. -/
def blockLanes (block : List Nat) : List Nat :=
  (List.range 17).map (fun i => bytesToLane ((block.drop (8 * i)).take 8))

/-- XOR one 136-byte block into the state and permute. -/
def absorbBlock (st block : List Nat) : List Nat :=
  keccakF ((List.range 25).map (fun i => st.getD i 0 ^^^ (blockLanes block).getD i 0))

/-- Split a byte string into 136-byte blocks.  The fuel argument (instantiated
with the string's length) makes the recursion structural. -/
def splitBlocks : Nat → List Nat → List (List Nat)
  | 0, _ => []
  | _ + 1, [] => []
  | fuel + 1, msg => msg.take 136 :: splitBlocks fuel (msg.drop 136)

/-- Absorb a padded message (length a multiple of 136) block by block. -/
def absorbAll (st msg : List Nat) : List Nat :=
  (splitBlocks msg.length msg).foldl absorbBlock st

/-- The 8 little-endian bytes of a 64-bit lane. -/
def laneBytes (l : Nat) : List Nat :=
  (List.range 8).map (fun i => l / 256 ^ i % 256)

/-- Keccak-256 digest of a byte string, as the list of its 32 bytes. -/
def keccak256Bytes (msg : List Nat) : List Nat :=
  let st := absorbAll (List.replicate 25 0) (keccakPad msg)
  ((List.range 4).map (fun i => laneBytes (st.getD i 0))).flatten

/-- Keccak-256 digest read as an unsigned integer, most significant byte
first — exactly `BigInt(seedHex)` applied to the digest's hex string. -/
def keccak256 (msg : List Nat) : Nat :=
  (keccak256Bytes msg).foldl (fun acc b => acc * 256 + b) 0

/-! ## Packed encoding and trait derivation

from `Virus3D` in `src/components/Virus3D.tsx` (both variants), and the
identical derivations in `src/unnamed/part_004` and `src/unnamed/part_005`. -/

/-- 32-byte big-endian encoding of a `uint256` value, as produced by
`encodePacked(['uint256'], …)`. -/
def be32 (v : Nat) : List Nat :=
  (List.range 32).map (fun i => v / 256 ^ (31 - i) % 256)

/-- UTF-8 bytes of an ASCII string (the domain constant is pure ASCII). -/
def strBytes (s : String) : List Nat :=
  s.toList.map (fun c => c.toNat)

/-- `encodePacked(['uint256','uint256','string'], [id, id, 'VIRUS_EVO_V1'])`. -/
def encodePackedVirus (id : Nat) : List Nat :=
  be32 id ++ be32 id ++ strBytes "VIRUS_EVO_V1"

/-- The trait record decoded from the seed; field names follow the code. -/
structure TraitRecord where
  seed : Nat
  hue : Nat
  spikeCount : Nat
  alignIdx : Nat
  mutIdx : Nat
deriving DecidableEq, Repr

/-- Decoding of a seed into traits:
`hue = Number(seed % 360n)`, `spikeCount = 6 + Number(seed % 7n)`,
`alignIdx = Number((seed >> 8n) % 2n)`, `mutIdx = Number((seed >> 12n) % 4n)`.
All four residues are below `2 ^ 53`, so the `Number` conversions are exact
and are modelled as the identity. -/
def seedToTraits (seed : Nat) : TraitRecord :=
  { seed := seed
    hue := seed % 360
    spikeCount := 6 + seed % 7
    alignIdx := (seed >>> 8) % 2
    mutIdx := (seed >>> 12) % 4 }

/-- Trait derivation with the hash function abstracted (the hash itself comes
from the `viem` library, outside this repository). -/
def deriveTraitsWith (hash : List Nat → Nat) (id : Nat) : TraitRecord :=
  seedToTraits (hash (encodePackedVirus id))

/-- The trait derivation of the code: keccak256 over the packed tuple
`(id, id, "VIRUS_EVO_V1")`. -/
def deriveTraits (id : Nat) : TraitRecord :=
  deriveTraitsWith keccak256 id

/-! ## Lore arrays and mutation naming

from `src/unnamed/part_004` (`MUTATIONS_SYM`, `MUTATIONS_PAR`, and the
selection `alignment === 'Symbiotic' ? MUTATIONS_SYM[mutIdx] : MUTATIONS_PAR[mutIdx]`). -/

def ALIGNMENTS : List String := ["Symbiotic", "Parasitic"]

def MUTATIONS_SYM : List String :=
  ["Neural-Linker", "Muscle-Weaver", "Cell-Regenerator", "Gene-Purifier"]

def MUTATIONS_PAR : List String :=
  ["Void-Rot", "Blood-Boil", "Neural-Decay", "Cell-Rupture"]

/-- `ALIGNMENTS[alignIdx]`; `alignIdx` is always `0` or `1`. -/
def alignmentName (alignIdx : Nat) : String := ALIGNMENTS.getD alignIdx ""

/-- The displayed mutation-archetype name. -/
def mutationName (alignIdx mutIdx : Nat) : String :=
  if alignmentName alignIdx = "Symbiotic" then MUTATIONS_SYM.getD mutIdx ""
  else MUTATIONS_PAR.getD mutIdx ""

/-! ## Palettes

The `hsl(...)` template strings are modelled structurally by their
(hue, saturation, lightness) components; opacities are rational. -/

/-- One `hsl(h, s%, l%)` color. -/
structure Hsl where
  hue : Nat
  sat : Nat
  light : Nat
deriving DecidableEq, Repr

/-- Palette of the particle renderer, `getPalette` in
`src/components/Virus3D.tsx` lines 24–34. -/
structure ParticlePalette where
  primary : Hsl
  primaryGlow : Hsl
  secondary : Hsl
  opacity : ℚ
deriving DecidableEq, Repr

def getPaletteParticle (hue : Nat) (alignment : String) : ParticlePalette :=
  let primaryHue := hue
  let secondaryHue := (hue + 180) % 360
  { primary := ⟨primaryHue, 100, 50⟩
    primaryGlow := ⟨primaryHue, 100, 60⟩
    secondary := ⟨secondaryHue, 90, 65⟩
    opacity := if alignment = "Parasitic" then 1 else 9 / 10 }

/-- Palette of the lore renderer, `getPalette` in `src/unnamed/part_004`
lines 30–50. -/
structure LorePalette where
  body : Hsl
  veins : Hsl
  core : Hsl
  spikes : Hsl
  tips : Hsl
  aura : Hsl
deriving DecidableEq, Repr

def getPaletteLore (hue : Nat) (alignment : String) : LorePalette :=
  if alignment = "Symbiotic" then
    { body := ⟨hue, 60, 45⟩
      veins := ⟨hue, 90, 65⟩
      core := ⟨(hue + 180) % 360, 100, 85⟩
      spikes := ⟨hue, 50, 30⟩
      tips := ⟨(hue + 40) % 360, 90, 60⟩
      aura := ⟨hue, 80, 50⟩ }
  else
    { body := ⟨hue, 50, 20⟩
      veins := ⟨(hue + 300) % 360, 100, 50⟩
      core := ⟨hue, 100, 50⟩
      spikes := ⟨hue, 20, 10⟩
      tips := ⟨(hue + 180) % 360, 100, 50⟩
      aura := ⟨(hue + 320) % 360, 90, 40⟩ }

/-! ## Input validation

The component receives `tokenId` as a JavaScript number (modelled as `ℚ`).
`BigInt(tokenId)` throws `RangeError` on a fractional number, and viem's
`encodePacked(['uint256'], …)` throws `IntegerOutOfRangeError` when the value
is negative or at least `2 ^ 256`; both throws happen before `keccak256` runs. -/

inductive TraitInputError where
  | notAnInteger
  | intOutOfRange
deriving DecidableEq, Repr

/-- `BigInt(x)` on a finite JS number. -/
def jsBigInt (x : ℚ) : Except TraitInputError Int :=
  if x.den = 1 then .ok x.num else .error .notAnInteger

/-- One `uint256` word of `encodePacked`, with viem's range check. -/
def encodeUint256 (v : Int) : Except TraitInputError (List Nat) :=
  if 0 ≤ v ∧ v < 2 ^ 256 then .ok (be32 v.toNat) else .error .intOutOfRange

/-- Exception propagation: a thrown error aborts the rest of the
computation, as a JS `throw` does inside `Virus3D`. -/
def exBind {ε α β : Type} (a : Except ε α)
    (f : α → Except ε β) : Except ε β :=
  match a with
  | .error e => .error e
  | .ok v => f v

/-- The whole guarded derivation: convert, encode both words, hash, decode;
a throw at any stage propagates out. -/
def deriveTraitsChecked (hash : List Nat → Nat) (x : ℚ) :
    Except TraitInputError TraitRecord :=
  exBind (jsBigInt x) fun idBig =>
  exBind (encodeUint256 idBig) fun w1 =>
  exBind (encodeUint256 idBig) fun w2 =>
  .ok (seedToTraits (hash (w1 ++ w2 ++ strBytes "VIRUS_EVO_V1")))

/-- The JS number `0.5`: a concrete fractional input (stated with an explicit
numerator/denominator pair so that it evaluates by `decide`). -/
def halfRat : ℚ := ⟨1, 2, by decide, Nat.coprime_one_left 2⟩

/-- The JS number `2^256`: the first integer outside the uint256 domain. -/
def twoPow256Rat : ℚ := ⟨Int.ofNat (2 ^ 256), 1, by decide, Nat.coprime_one_right _⟩

/-! ## Appendage placement and surface displacement

from `ParticleSpikes` in `src/components/Virus3D.tsx` (lines 205–231, the
displaced-surface variant, and lines 549–567, the normalized variant — the
latter identical to `ParticleSpikes` in `src/unnamed/part_005` and to
`SpikeArray` in the first part of `src/unnamed/part_004`), and from
`getRuggedDisplacement` (Virus3D.tsx lines 18–22).  JavaScript floating-point
arithmetic is modelled by exact real arithmetic, hence the noncomputable
definitions in this geometric section. -/

/-- `Math.PI * (3 - Math.sqrt(5))`, the golden angle. -/
noncomputable def goldenAngle : ℝ := Real.pi * (3 - Real.sqrt 5)

/-- `const y = 1 - (i / (count - 1)) * 2`. -/
noncomputable def spikeY (count i : ℕ) : ℝ :=
  1 - ((i : ℝ) / ((count : ℝ) - 1)) * 2

/-- `const theta = phiMagic * i`. -/
noncomputable def spikeTheta (i : ℕ) : ℝ := goldenAngle * (i : ℝ)

/-- `const radius = Math.sqrt(1 - y * y)`. -/
noncomputable def spikeRadiusAtY (count i : ℕ) : ℝ :=
  Real.sqrt (1 - spikeY count i * spikeY count i)

/-- The raw spiral point `(cos θ · radius, y, sin θ · radius)`. -/
noncomputable def spiralPoint (count i : ℕ) : ℝ × ℝ × ℝ :=
  (Real.cos (spikeTheta i) * spikeRadiusAtY count i,
   spikeY count i,
   Real.sin (spikeTheta i) * spikeRadiusAtY count i)

/-- Euclidean length of a 3-vector. -/
noncomputable def norm3 (v : ℝ × ℝ × ℝ) : ℝ :=
  Real.sqrt (v.1 ^ 2 + v.2.1 ^ 2 + v.2.2 ^ 2)

/-- `THREE.Vector3.normalize`: divide by the length (a zero vector stays
unchanged, as `divideScalar(length || 1)` does). -/
noncomputable def normalize3 (v : ℝ × ℝ × ℝ) : ℝ × ℝ × ℝ :=
  if norm3 v = 0 then v else (v.1 / norm3 v, v.2.1 / norm3 v, v.2.2 / norm3 v)

/-- Unit appendage direction `new THREE.Vector3(x, y, z).normalize()` of the
normalized spike variants. -/
noncomputable def spikeDir (count i : ℕ) : ℝ × ℝ × ℝ :=
  normalize3 (spiralPoint count i)

/-- Euclidean distance between two 3-vectors. -/
noncomputable def dist3 (v w : ℝ × ℝ × ℝ) : ℝ :=
  norm3 (v.1 - w.1, v.2.1 - w.2.1, v.2.2 - w.2.2)

/-- `getRuggedDisplacement(theta, phi)`:
`sin(θ·5)·cos(φ·5)·0.15 + cos(θ·20 + φ·10)·0.03`. -/
noncomputable def getRuggedDisplacement (theta phi : ℝ) : ℝ :=
  Real.sin (theta * 5) * Real.cos (phi * 5) * 0.15
    + Real.cos (theta * 20 + phi * 10) * 0.03

/-- `const phi = Math.acos(y)`. -/
noncomputable def spikePhi (count i : ℕ) : ℝ := Real.arccos (spikeY count i)

/-- `const surfaceRadius = 1.0 + displacement`. -/
noncomputable def surfaceRadiusAt (count i : ℕ) : ℝ :=
  1 + getRuggedDisplacement (spikeTheta i) (spikePhi count i)

/-- Spike base position of the displaced-surface variant:
`x = surfaceRadius·cosθ·radiusAtY`, `yPos = y·surfaceRadius`,
`z = surfaceRadius·sinθ·radiusAtY`. -/
noncomputable def spikeBasePos (count i : ℕ) : ℝ × ℝ × ℝ :=
  (surfaceRadiusAt count i * Real.cos (spikeTheta i) * spikeRadiusAtY count i,
   spikeY count i * surfaceRadiusAt count i,
   surfaceRadiusAt count i * Real.sin (spikeTheta i) * spikeRadiusAtY count i)

/-! ## Token-URI image decoding

from `decodeTokenUri` in `src/components/ViralStrainApp.tsx` lines 27–33 and
`decodeTokenImage` in `src/app/view-3d/page.tsx` lines 23–29.  The pipeline
`uri.split(',')[1]` → `atob` → `JSON.parse` → `.image` is modelled
faithfully: every JavaScript exception of the inner pipeline becomes an
`Except.error`, and the surrounding `try/catch` maps any error to `""`
(resp. `null`).  When the split has no second segment, JS evaluates
`atob(undefined)`, which coerces the argument to the nine-character string
`"undefined"` — that is modelled by the `getD` default. -/

/-- A JSON value as produced by `JSON.parse`.  Numbers are kept exact in ℚ
(the double rounding of JS numbers is immaterial to the claims); `\u`
escapes of surrogate code units fall back to `Char.ofNat`'s default. -/
inductive Json where
  | null
  | bool (b : Bool)
  | num (q : ℚ)
  | str (s : String)
  | arr (elems : List Json)
  | obj (fields : List (String × Json))

/-- A JavaScript value that may be `undefined` (property access on an
object that lacks the property). -/
inductive JsVal where
  | jsUndefined
  | val (j : Json)

/-- `String.prototype.split` with a single-character separator. -/
def splitOnChar (sep : Char) (cs : List Char) : List (List Char) :=
  match cs with
  | [] => [[]]
  | c :: rest =>
    let tail := splitOnChar sep rest
    if c = sep then [] :: tail
    else
      match tail with
      | [] => [[c]]
      | seg :: segs => (c :: seg) :: segs

/-- ASCII whitespace stripped by forgiving-base64 (`atob`). -/
def isB64Ws (c : Char) : Bool :=
  c == ' ' || c == '\t' || c == '\n' || c == '\x0c' || c == '\r'

/-- Value of one base64 alphabet character. -/
def b64Val (c : Char) : Option Nat :=
  if 'A' ≤ c ∧ c ≤ 'Z' then some (c.toNat - 65)
  else if 'a' ≤ c ∧ c ≤ 'z' then some (c.toNat - 97 + 26)
  else if '0' ≤ c ∧ c ≤ '9' then some (c.toNat - 48 + 52)
  else if c = '+' then some 62
  else if c = '/' then some 63
  else none

/-- Drop one trailing `=` if present. -/
def stripEq (cs : List Char) : List Char :=
  match cs.getLast? with
  | some '=' => cs.dropLast
  | _ => cs

/-- Map every character to its 6-bit value; `none` on the first invalid one. -/
def mapB64 : List Char → Option (List Nat)
  | [] => some []
  | c :: rest =>
    match b64Val c, mapB64 rest with
    | some v, some vs => some (v :: vs)
    | _, _ => none

/-- Reassemble 6-bit values into bytes: full quartets give 3 bytes, a
trailing pair gives 1 byte and a trailing triple gives 2 (excess bits are
discarded, as forgiving-base64 does). -/
def b64Assemble : List Nat → List Nat
  | [] => []
  | [_] => []
  | [a, b] => [a * 4 + b / 16]
  | [a, b, c] => [a * 4 + b / 16, b % 16 * 16 + c / 4]
  | a :: b :: c :: d :: rest =>
    (a * 4 + b / 16) :: (b % 16 * 16 + c / 4) :: (c % 4 * 64 + d) :: b64Assemble rest

/-- `atob`: the WHATWG forgiving-base64 decode.  Strip ASCII whitespace;
when the length is a multiple of 4 remove up to two trailing `=`; reject a
length ≡ 1 (mod 4) and any character outside the alphabet; assemble bytes. -/
def atobBytes (s : List Char) : Except Unit (List Nat) :=
  let cs := s.filter (fun c => !(isB64Ws c))
  let cs := if cs.length % 4 = 0 then stripEq (stripEq cs) else cs
  if cs.length % 4 = 1 then .error ()
  else
    match mapB64 cs with
    | none => .error ()
    | some vs => .ok (b64Assemble vs)

/-- The binary string returned by `atob`: one (latin-1) character per byte. -/
def bytesToChars (bs : List Nat) : List Char :=
  bs.map (fun b => Char.ofNat b)

/-- The JSON whitespace accepted by `JSON.parse`. -/
def isJsonWs (c : Char) : Bool :=
  c == ' ' || c == '\t' || c == '\n' || c == '\r'

def skipWs (cs : List Char) : List Char :=
  cs.dropWhile isJsonWs

/-- Value of one hexadecimal digit. -/
def hexVal (c : Char) : Option Nat :=
  if '0' ≤ c ∧ c ≤ '9' then some (c.toNat - 48)
  else if 'a' ≤ c ∧ c ≤ 'f' then some (c.toNat - 97 + 10)
  else if 'A' ≤ c ∧ c ≤ 'F' then some (c.toNat - 65 + 10)
  else none

/-- Body of a JSON string after the opening quote: plain characters and the
escape sequences of the JSON grammar, up to the closing quote.  Returns the
characters and the remaining input.  The fuel (instantiated with the input
length) makes the recursion structural. -/
def parseStringBody : Nat → List Char → Option (List Char × List Char)
  | 0, _ => none
  | _ + 1, [] => none
  | fuel + 1, c :: rest =>
    if c = '"' then some ([], rest)
    else if c.toNat < 32 then none
    else if c = '\\' then
      match rest with
      | [] => none
      | e :: rest2 =>
        let esc : Option (Char × List Char) :=
          if e = '"' then some ('"', rest2)
          else if e = '\\' then some ('\\', rest2)
          else if e = '/' then some ('/', rest2)
          else if e = 'b' then some ('\x08', rest2)
          else if e = 'f' then some ('\x0c', rest2)
          else if e = 'n' then some ('\n', rest2)
          else if e = 'r' then some ('\r', rest2)
          else if e = 't' then some ('\t', rest2)
          else if e = 'u' then
            match rest2 with
            | h1 :: h2 :: h3 :: h4 :: rest3 =>
              match hexVal h1, hexVal h2, hexVal h3, hexVal h4 with
              | some a, some b, some c2, some d =>
                some (Char.ofNat (((a * 16 + b) * 16 + c2) * 16 + d), rest3)
              | _, _, _, _ => none
            | _ => none
          else none
        match esc with
        | none => none
        | some (ch, rest3) =>
          match parseStringBody fuel rest3 with
          | none => none
          | some (body, rem) => some (ch :: body, rem)
    else
      match parseStringBody fuel rest with
      | none => none
      | some (body, rem) => some (c :: body, rem)

/-- Numeric value of a digit string. -/
def digitsVal (ds : List Char) : Nat :=
  ds.foldl (fun a c => a * 10 + (c.toNat - 48)) 0

/-- A JSON number: optional minus, integer part without a superfluous
leading zero, optional fraction, optional exponent. -/
def parseNum (cs : List Char) : Option (ℚ × List Char) :=
  let signAndRest : Bool × List Char :=
    match cs with
    | '-' :: rest => (true, rest)
    | _ => (false, cs)
  let neg := signAndRest.1
  let cs1 := signAndRest.2
  let intAndRest : Option (List Char × List Char) :=
    match cs1 with
    | '0' :: rest => some (['0'], rest)
    | c :: _ =>
      if c.isDigit then some (cs1.takeWhile Char.isDigit, cs1.dropWhile Char.isDigit)
      else none
    | [] => none
  match intAndRest with
  | none => none
  | some (intDs, cs2) =>
    let fracAndRest : Option (List Char × List Char) :=
      match cs2 with
      | '.' :: rest =>
        let ds := rest.takeWhile Char.isDigit
        if ds.isEmpty then none else some (ds, rest.dropWhile Char.isDigit)
      | _ => some ([], cs2)
    match fracAndRest with
    | none => none
    | some (fracDs, cs3) =>
      let expAndRest : Option (Int × List Char) :=
        match cs3 with
        | e :: rest3 =>
          if e = 'e' ∨ e = 'E' then
            let signedRest : Int × List Char :=
              match rest3 with
              | '+' :: r => (1, r)
              | '-' :: r => (-1, r)
              | _ => (1, rest3)
            let ds := signedRest.2.takeWhile Char.isDigit
            if ds.isEmpty then none
            else some (signedRest.1 * digitsVal ds, signedRest.2.dropWhile Char.isDigit)
          else some (0, cs3)
        | [] => some (0, [])
      match expAndRest with
      | none => none
      | some (e10, cs4) =>
        let mantissa : ℚ := digitsVal (intDs ++ fracDs)
        let value : ℚ :=
          (if neg then -mantissa else mantissa) * 10 ^ (e10 - fracDs.length)
        some (value, cs4)

mutual

/-- One JSON value (`JSON.parse` grammar), returning the remaining input. -/
def parseVal : Nat → List Char → Option (Json × List Char)
  | 0, _ => none
  | fuel + 1, cs =>
    match skipWs cs with
    | [] => none
    | c :: rest =>
      if c = '\x7b' then
        match skipWs rest with
        | '\x7d' :: rest2 => some (.obj [], rest2)
        | rest2 =>
          match parseMembers fuel rest2 with
          | some (fields, rem) =>
            match skipWs rem with
            | '\x7d' :: rem2 => some (.obj fields, rem2)
            | _ => none
          | none => none
      else if c = '[' then
        match skipWs rest with
        | ']' :: rest2 => some (.arr [], rest2)
        | rest2 =>
          match parseElems fuel rest2 with
          | some (elems, rem) =>
            match skipWs rem with
            | ']' :: rem2 => some (.arr elems, rem2)
            | _ => none
          | none => none
      else if c = '"' then
        match parseStringBody (rest.length + 1) rest with
        | some (body, rem) => some (.str (String.mk body), rem)
        | none => none
      else if c = 't' then
        match rest with
        | 'r' :: 'u' :: 'e' :: rem => some (.bool true, rem)
        | _ => none
      else if c = 'f' then
        match rest with
        | 'a' :: 'l' :: 's' :: 'e' :: rem => some (.bool false, rem)
        | _ => none
      else if c = 'n' then
        match rest with
        | 'u' :: 'l' :: 'l' :: rem => some (.null, rem)
        | _ => none
      else
        match parseNum (c :: rest) with
        | some (q, rem) => some (.num q, rem)
        | none => none

/-- The members of a JSON object after the opening brace (at least one). -/
def parseMembers : Nat → List Char → Option (List (String × Json) × List Char)
  | 0, _ => none
  | fuel + 1, cs =>
    match skipWs cs with
    | '"' :: rest =>
      match parseStringBody (rest.length + 1) rest with
      | some (key, rem) =>
        match skipWs rem with
        | ':' :: rem2 =>
          match parseVal fuel rem2 with
          | some (v, rem3) =>
            match skipWs rem3 with
            | ',' :: rem4 =>
              match parseMembers fuel rem4 with
              | some (fields, rem5) => some ((String.mk key, v) :: fields, rem5)
              | none => none
            | rem4 => some ([(String.mk key, v)], rem4)
          | none => none
        | _ => none
      | none => none
    | _ => none

/-- The elements of a JSON array after the opening bracket (at least one). -/
def parseElems : Nat → List Char → Option (List Json × List Char)
  | 0, _ => none
  | fuel + 1, cs =>
    match parseVal fuel cs with
    | some (v, rem) =>
      match skipWs rem with
      | ',' :: rem2 =>
        match parseElems fuel rem2 with
        | some (elems, rem3) => some (v :: elems, rem3)
        | none => none
      | rem2 => some ([v], rem2)
    | none => none

end

/-- `JSON.parse`: one value, then only whitespace may remain.  The fuel
`length + 2` dominates the nesting depth, since every nesting level consumes
at least one character. -/
def jsonParse (cs : List Char) : Option Json :=
  match parseVal (cs.length + 2) cs with
  | some (j, rem) => if (skipWs rem).isEmpty then some j else none
  | none => none

/-- JS property lookup on an object literal: the *last* occurrence of a
duplicated key wins, `undefined` when the key is absent. -/
def jsonLookup (fields : List (String × Json)) (k : String) : JsVal :=
  match fields with
  | [] => .jsUndefined
  | (k', v) :: rest =>
    match jsonLookup rest k with
    | .jsUndefined => if k' = k then .val v else .jsUndefined
    | r => r

/-- `decodedJson.image`: throws on `null` (property access on null is a
`TypeError`), looks the key up on an object, and yields `undefined` on any
other primitive or array. -/
def getImage (j : Json) : Except Unit JsVal :=
  match j with
  | .null => .error ()
  | .obj fields => .ok (jsonLookup fields "image")
  | _ => .ok .jsUndefined

/-- `uri.split(',')[1]`, with the JS coercion of `undefined` to the string
`"undefined"` that `atob` performs when there is no second segment. -/
def uriSegment (uri : String) : List Char :=
  (splitOnChar ',' uri.toList).getD 1 ("undefined".toList)

/-- A failed parse is a thrown `SyntaxError`. -/
def jsonOrThrow (o : Option Json) : Except Unit Json :=
  match o with
  | none => .error ()
  | some j => .ok j

/-- The inner pipeline of both decoders; an error models a thrown exception
reaching the `catch`. -/
def decodeTokenUriCore (uri : String) : Except Unit JsVal :=
  exBind (atobBytes (uriSegment uri)) fun bs =>
  exBind (jsonOrThrow (jsonParse (bytesToChars bs))) getImage

/-- `decodeTokenUri` (`ViralStrainApp.tsx`): the catch branch returns `""`. -/
def decodeTokenUri (uri : String) : JsVal :=
  match decodeTokenUriCore uri with
  | .ok v => v
  | .error _ => .val (.str "")

/-- `decodeTokenImage` (`view-3d/page.tsx`): the catch branch returns `null`. -/
def decodeTokenImage (uri : String) : JsVal :=
  match decodeTokenUriCore uri with
  | .ok v => v
  | .error _ => .val .null

/-! ## Supporting lemmas -/

@[simp] theorem exBind_ok {ε α β : Type} (v : α) (f : α → Except ε β) :
    exBind (Except.ok v) f = f v := rfl

@[simp] theorem exBind_error {ε α β : Type} (e : ε)
    (f : α → Except ε β) :
    exBind (.error e) f = .error e := rfl

/-! ## Bounds on the digest -/

/-- Reading digits base 256 from a list of bytes stays below
`(acc + 1) * 256 ^ length`. -/
theorem foldlBase256_lt (bs : List Nat) :
    ∀ acc : Nat, (∀ b ∈ bs, b < 256) →
      bs.foldl (fun a b => a * 256 + b) acc < (acc + 1) * 256 ^ bs.length := by
  induction bs with
  | nil =>
    intro acc _
    simp only [List.foldl_nil, List.length_nil, pow_zero, mul_one]
    exact Nat.lt_succ_self acc
  | cons b bs ih =>
    intro acc h
    have hb : b < 256 := h b (List.mem_cons_self b bs)
    have hrec := ih (acc * 256 + b) (fun x hx => h x (List.mem_cons_of_mem _ hx))
    simp only [List.foldl_cons, List.length_cons]
    refine lt_of_lt_of_le hrec ?_
    have hstep : acc * 256 + b + 1 ≤ (acc + 1) * 256 := by omega
    calc (acc * 256 + b + 1) * 256 ^ bs.length
        ≤ ((acc + 1) * 256) * 256 ^ bs.length := Nat.mul_le_mul_right _ hstep
      _ = (acc + 1) * 256 ^ (bs.length + 1) := by ring

theorem keccak256Bytes_length (msg : List Nat) : (keccak256Bytes msg).length = 32 := by
  simp [keccak256Bytes, laneBytes, List.range_succ]

theorem keccak256Bytes_lt (msg : List Nat) : ∀ b ∈ keccak256Bytes msg, b < 256 := by
  intro b hb
  simp only [keccak256Bytes, List.mem_flatten, List.mem_map, laneBytes] at hb
  obtain ⟨l, ⟨i, _, rfl⟩, hbl⟩ := hb
  simp only [List.mem_map] at hbl
  obtain ⟨j, _, rfl⟩ := hbl
  exact Nat.mod_lt _ (by norm_num)

/-- The digest, read as an integer, fits in an unsigned 256-bit slot. -/
theorem keccak256_lt (msg : List Nat) : keccak256 msg < 2 ^ 256 := by
  have h := foldlBase256_lt (keccak256Bytes msg) 0 (keccak256Bytes_lt msg)
  rw [keccak256Bytes_length] at h
  have h2 : (0 + 1) * 256 ^ 32 = 2 ^ 256 := by norm_num
  rw [h2] at h
  exact h

/-! ## Claim theorems: trait derivation -/

/-- **C1.** For every id representable in the uint256 slot of the packed
encoding, the derivation computes
`seed = keccak256(encodePacked(uint256 id, uint256 id, "VIRUS_EVO_V1"))`,
an unsigned 256-bit integer, and derives `hue = seed mod 360`,
`appendageCount = 6 + (seed mod 7)`, alignment index `(seed >> 8) mod 2` and
mutation-archetype index `(seed >> 12) mod 4`; the guarded pipeline accepts
such an id and produces exactly this record. -/
theorem deriveTraits_formula (id : Nat) (hid : id < 2 ^ 256) :
    (deriveTraits id).seed = keccak256 (be32 id ++ be32 id ++ strBytes "VIRUS_EVO_V1")
    ∧ (deriveTraits id).seed < 2 ^ 256
    ∧ (deriveTraits id).hue = (deriveTraits id).seed % 360
    ∧ (deriveTraits id).spikeCount = 6 + (deriveTraits id).seed % 7
    ∧ (deriveTraits id).alignIdx = ((deriveTraits id).seed >>> 8) % 2
    ∧ (deriveTraits id).mutIdx = ((deriveTraits id).seed >>> 12) % 4
    ∧ deriveTraitsChecked keccak256 (id : ℚ) = .ok (deriveTraits id) := by
  refine ⟨rfl, keccak256_lt _, rfl, rfl, rfl, rfl, ?_⟩
  have h1 : jsBigInt (id : ℚ) = .ok (id : ℤ) := by
    simp [jsBigInt, Rat.den_natCast, Rat.num_natCast]
  have h2 : encodeUint256 (id : ℤ) = .ok (be32 id) := by
    rw [encodeUint256, if_pos ⟨Int.natCast_nonneg id, by exact_mod_cast hid⟩]
    simp
  rw [deriveTraitsChecked, h1, exBind_ok, h2, exBind_ok, exBind_ok]
  rfl

theorem deriveTraits_formula_witness :
    (42 : Nat) < 2 ^ 256
    ∧ (deriveTraits 42).hue = (deriveTraits 42).seed % 360 :=
  ⟨by decide, (deriveTraits_formula 42 (by decide)).2.2.1⟩

/-- **C2.** Trait derivation is a pure two-run-deterministic function: two
evaluations on the same id (with the same hash primitive, and in particular
with keccak256) produce bit-identical trait records, field by field. -/
theorem deriveTraits_deterministic (hash : List Nat → Nat) (id₁ id₂ : Nat)
    (h : id₁ = id₂) :
    deriveTraitsWith hash id₁ = deriveTraitsWith hash id₂
    ∧ deriveTraits id₁ = deriveTraits id₂
    ∧ (deriveTraits id₁).seed = (deriveTraits id₂).seed
    ∧ (deriveTraits id₁).hue = (deriveTraits id₂).hue
    ∧ (deriveTraits id₁).spikeCount = (deriveTraits id₂).spikeCount
    ∧ (deriveTraits id₁).alignIdx = (deriveTraits id₂).alignIdx
    ∧ (deriveTraits id₁).mutIdx = (deriveTraits id₂).mutIdx := by
  subst h
  exact ⟨rfl, rfl, rfl, rfl, rfl, rfl, rfl⟩

theorem deriveTraits_deterministic_witness :
    (42 : Nat) = 42 ∧ deriveTraits 42 = deriveTraits 42 :=
  ⟨rfl, (deriveTraits_deterministic keccak256 42 42 rfl).2.1⟩

/-- Range bounds of the decoded traits, for any seed value. -/
theorem seedToTraits_ranges (s : Nat) :
    (seedToTraits s).hue ≤ 359
    ∧ 6 ≤ (seedToTraits s).spikeCount ∧ (seedToTraits s).spikeCount ≤ 12
    ∧ (seedToTraits s).alignIdx ≤ 1
    ∧ (seedToTraits s).mutIdx ≤ 3 := by
  simp only [seedToTraits]
  have h1 := Nat.mod_lt s (show 0 < 360 by norm_num)
  have h2 := Nat.mod_lt s (show 0 < 7 by norm_num)
  have h3 := Nat.mod_lt (s >>> 8) (show 0 < 2 by norm_num)
  have h4 := Nat.mod_lt (s >>> 12) (show 0 < 4 by norm_num)
  omega

/-- **C3.** For every id the derived traits satisfy the range invariants:
hue ∈ [0, 359], appendageCount ∈ [6, 12], alignment index ∈ {0, 1},
mutation-archetype index ∈ [0, 3] (lower bounds 0 are automatic in ℕ). -/
theorem deriveTraits_range_invariants (id : Nat) :
    (deriveTraits id).hue ≤ 359
    ∧ 6 ≤ (deriveTraits id).spikeCount ∧ (deriveTraits id).spikeCount ≤ 12
    ∧ (deriveTraits id).alignIdx ≤ 1
    ∧ (deriveTraits id).mutIdx ≤ 3 :=
  seedToTraits_ranges (keccak256 (encodePackedVirus id))

/-- The selected mutation name stays in the alignment's own 4-name set. -/
theorem mutationName_mem (a m : Nat) (hm : m < 4) :
    mutationName a m
      ∈ (if alignmentName a = "Symbiotic" then MUTATIONS_SYM else MUTATIONS_PAR) := by
  by_cases ha : alignmentName a = "Symbiotic"
  · rw [if_pos ha, mutationName, if_pos ha]
    interval_cases m <;> decide
  · rw [if_neg ha, mutationName, if_neg ha]
    interval_cases m <;> decide

/-- **C4.** For every id, the displayed mutation-archetype name comes from
the Symbiotic name set when the derived alignment is Symbiotic and from the
Parasitic name set otherwise, and the two 4-name sets are disjoint (their
intersection is empty), so names are never mixed across alignments. -/
theorem mutationName_alignment_domain (id : Nat) :
    mutationName (deriveTraits id).alignIdx (deriveTraits id).mutIdx
      ∈ (if alignmentName (deriveTraits id).alignIdx = "Symbiotic"
          then MUTATIONS_SYM else MUTATIONS_PAR)
    ∧ MUTATIONS_SYM.inter MUTATIONS_PAR = [] := by
  constructor
  · have hm : (deriveTraits id).mutIdx < 4 :=
      Nat.mod_lt _ (show 0 < 4 by norm_num)
    exact mutationName_mem _ _ hm
  · decide

/-- **C6 (amended).** Alignment depends only on bit 8 of the seed, and the
mutation-archetype index only on bits 12–13 — these two bit-ranges are
disjoint.  Hue and appendageCount, however, are residues of the *entire*
seed modulo 360 and 7 and are not confined to any bit-range (see the
accompanying counterexample), so the four traits do not consume pairwise
disjoint bit-ranges of the seed. -/
theorem traits_bit_dependence (s t : Nat)
    (h8 : s.testBit 8 = t.testBit 8)
    (h12 : s.testBit 12 = t.testBit 12)
    (h13 : s.testBit 13 = t.testBit 13) :
    (seedToTraits s).alignIdx = (seedToTraits t).alignIdx
    ∧ (seedToTraits s).mutIdx = (seedToTraits t).mutIdx := by
  have hbit : ∀ (u v k : Nat), u.testBit k = v.testBit k →
      u / 2 ^ k % 2 = v / 2 ^ k % 2 := by
    intro u v k h
    have hiff : u / 2 ^ k % 2 = 1 ↔ v / 2 ^ k % 2 = 1 := by
      simpa [Nat.testBit_to_div_mod, decide_eq_decide] using h
    have b1 : u / 2 ^ k % 2 < 2 := Nat.mod_lt _ (by norm_num)
    have b2 : v / 2 ^ k % 2 < 2 := Nat.mod_lt _ (by norm_num)
    by_cases hc : u / 2 ^ k % 2 = 1
    · rw [hc, (hiff.mp hc)]
    · have hc' : ¬ v / 2 ^ k % 2 = 1 := fun hv => hc (hiff.mpr hv)
      omega
  have e8 := hbit s t 8 h8
  have e12 := hbit s t 12 h12
  have e13 := hbit s t 13 h13
  constructor
  · show (s >>> 8) % 2 = (t >>> 8) % 2
    rw [Nat.shiftRight_eq_div_pow, Nat.shiftRight_eq_div_pow]
    exact e8
  · show (s >>> 12) % 4 = (t >>> 12) % 4
    rw [Nat.shiftRight_eq_div_pow, Nat.shiftRight_eq_div_pow]
    have d1 : s / 2 ^ 12 / 2 = s / 2 ^ 13 := by
      rw [Nat.div_div_eq_div_mul]
      norm_num
    have d2 : t / 2 ^ 12 / 2 = t / 2 ^ 13 := by
      rw [Nat.div_div_eq_div_mul]
      norm_num
    have e13' : s / 2 ^ 12 / 2 % 2 = t / 2 ^ 12 / 2 % 2 := by
      rw [d1, d2]
      exact e13
    omega

theorem traits_bit_dependence_witness :
    (Nat.testBit 7 8 = Nat.testBit 7 8
      ∧ Nat.testBit 7 12 = Nat.testBit 7 12
      ∧ Nat.testBit 7 13 = Nat.testBit 7 13)
    ∧ (seedToTraits 7).alignIdx = (seedToTraits 7).alignIdx :=
  ⟨⟨rfl, rfl, rfl⟩, (traits_bit_dependence 7 7 rfl rfl rfl).1⟩

/-- **C6 (counterexample).** The claimed disjoint-bit-range property fails:
the seeds 0 and 2¹⁶ agree on every bit below 16 — hence on any bit-range
the formulas could assign to hue (`seed mod 360` needs at most bits 0–8),
to appendageCount (bits 0–2), to alignment (bit 8) and to the mutation
archetype (bits 12–13) — and indeed give equal alignment and mutation
values, yet their hue and appendageCount differ, so those traits are not
functions of any such bit-range.  Moreover the seeds 0 and 256 differ *only*
in bit 8 (they agree below bit 8 and above bit 8), yet flipping that single
bit changes both alignment *and* hue, so bit 8 is not consumed by a single
trait. -/
theorem traits_bit_ranges_counterexample :
    (0 : Nat) % 2 ^ 16 = 2 ^ 16 % 2 ^ 16
    ∧ (seedToTraits 0).alignIdx = (seedToTraits (2 ^ 16)).alignIdx
    ∧ (seedToTraits 0).mutIdx = (seedToTraits (2 ^ 16)).mutIdx
    ∧ (seedToTraits 0).hue ≠ (seedToTraits (2 ^ 16)).hue
    ∧ (seedToTraits 0).spikeCount ≠ (seedToTraits (2 ^ 16)).spikeCount
    ∧ (0 : Nat) % 2 ^ 8 = 256 % 2 ^ 8
    ∧ (0 : Nat) / 2 ^ 9 = 256 / 2 ^ 9
    ∧ Nat.testBit 0 8 ≠ Nat.testBit 256 8
    ∧ (seedToTraits 0).alignIdx ≠ (seedToTraits 256).alignIdx
    ∧ (seedToTraits 0).hue ≠ (seedToTraits 256).hue := by
  decide

/-- **C9.** Every input outside the representable uint256 domain — negative,
fractional, or at least 2²⁵⁶ — is rejected with an error before hashing:
the outcome is an `error` (a `RangeError` from `BigInt` for fractional
input, viem's `IntegerOutOfRangeError` otherwise), it does not depend on
the hash function at all, and it is never an `ok` trait record, so no
silent wraparound into the valid domain can occur. -/
theorem deriveTraitsChecked_rejects (hash₁ hash₂ : List Nat → Nat) (x : ℚ)
    (hx : ¬ (x.den = 1 ∧ 0 ≤ x.num ∧ x.num < 2 ^ 256)) :
    deriveTraitsChecked hash₁ x
      = .error (if x.den = 1 then .intOutOfRange else .notAnInteger)
    ∧ deriveTraitsChecked hash₁ x = deriveTraitsChecked hash₂ x
    ∧ ∀ t, deriveTraitsChecked hash₁ x ≠ .ok t := by
  by_cases hden : x.den = 1
  · have hrange : ¬ (0 ≤ x.num ∧ x.num < 2 ^ 256) := fun hr => hx ⟨hden, hr⟩
    have he : ∀ h : List Nat → Nat,
        deriveTraitsChecked h x = .error .intOutOfRange := by
      intro h
      rw [deriveTraitsChecked, jsBigInt, if_pos hden, exBind_ok,
        encodeUint256, if_neg hrange, exBind_error]
    refine ⟨?_, ?_, ?_⟩
    · rw [he hash₁, if_pos hden]
    · rw [he hash₁, he hash₂]
    · intro t
      rw [he hash₁]
      exact fun hcontra => Except.noConfusion hcontra
  · have he : ∀ h : List Nat → Nat,
        deriveTraitsChecked h x = .error .notAnInteger := by
      intro h
      rw [deriveTraitsChecked, jsBigInt, if_neg hden, exBind_error]
    refine ⟨?_, ?_, ?_⟩
    · rw [he hash₁, if_neg hden]
    · rw [he hash₁, he hash₂]
    · intro t
      rw [he hash₁]
      exact fun hcontra => Except.noConfusion hcontra

set_option maxRecDepth 4000 in
theorem deriveTraitsChecked_rejects_witness :
    (¬ ((-1 : ℚ).den = 1 ∧ 0 ≤ (-1 : ℚ).num ∧ (-1 : ℚ).num < 2 ^ 256)
      ∧ ∀ t, deriveTraitsChecked keccak256 (-1) ≠ .ok t)
    ∧ (¬ (halfRat.den = 1 ∧ 0 ≤ halfRat.num ∧ halfRat.num < 2 ^ 256)
      ∧ ∀ t, deriveTraitsChecked keccak256 halfRat ≠ .ok t)
    ∧ (¬ (twoPow256Rat.den = 1 ∧ 0 ≤ twoPow256Rat.num ∧ twoPow256Rat.num < 2 ^ 256)
      ∧ ∀ t, deriveTraitsChecked keccak256 twoPow256Rat ≠ .ok t) :=
  ⟨⟨by decide, (deriveTraitsChecked_rejects keccak256 keccak256 (-1) (by decide)).2.2⟩,
   ⟨by decide, (deriveTraitsChecked_rejects keccak256 keccak256 halfRat (by decide)).2.2⟩,
   ⟨by decide, (deriveTraitsChecked_rejects keccak256 keccak256 twoPow256Rat (by decide)).2.2⟩⟩

/-! ## Geometry of the spike placement -/

theorem spikeY_bounds (count i : ℕ) (h2 : 2 ≤ count) (hi : i < count) :
    -1 ≤ spikeY count i ∧ spikeY count i ≤ 1 := by
  have hc : (2 : ℝ) ≤ (count : ℝ) := by exact_mod_cast h2
  have hpos : (0 : ℝ) < (count : ℝ) - 1 := by linarith
  have hq0 : 0 ≤ (i : ℝ) / ((count : ℝ) - 1) :=
    div_nonneg (Nat.cast_nonneg i) hpos.le
  have hq1 : (i : ℝ) / ((count : ℝ) - 1) ≤ 1 := by
    rw [div_le_one hpos]
    have : (i : ℝ) + 1 ≤ (count : ℝ) := by exact_mod_cast Nat.succ_le_of_lt hi
    linarith
  unfold spikeY
  constructor <;> nlinarith

theorem spikeRadiusAtY_sq (count i : ℕ) (h2 : 2 ≤ count) (hi : i < count) :
    spikeRadiusAtY count i ^ 2 = 1 - spikeY count i * spikeY count i := by
  have hb := spikeY_bounds count i h2 hi
  have hnn : 0 ≤ 1 - spikeY count i * spikeY count i := by nlinarith [hb.1, hb.2]
  unfold spikeRadiusAtY
  exact Real.sq_sqrt hnn

theorem spiralPoint_sq_sum (count i : ℕ) (h2 : 2 ≤ count) (hi : i < count) :
    (spiralPoint count i).1 ^ 2 + (spiralPoint count i).2.1 ^ 2
      + (spiralPoint count i).2.2 ^ 2 = 1 := by
  show (Real.cos (spikeTheta i) * spikeRadiusAtY count i) ^ 2
      + spikeY count i ^ 2
      + (Real.sin (spikeTheta i) * spikeRadiusAtY count i) ^ 2 = 1
  have hr := spikeRadiusAtY_sq count i h2 hi
  have ht := Real.sin_sq_add_cos_sq (spikeTheta i)
  nlinarith [hr, ht]

theorem norm3_spiralPoint (count i : ℕ) (h2 : 2 ≤ count) (hi : i < count) :
    norm3 (spiralPoint count i) = 1 := by
  unfold norm3
  rw [spiralPoint_sq_sum count i h2 hi]
  exact Real.sqrt_one

/-- On the spiral points the `normalize()` call is the identity: they already
have length one. -/
theorem spikeDir_eq_spiralPoint (count i : ℕ) (h2 : 2 ≤ count) (hi : i < count) :
    spikeDir count i = spiralPoint count i := by
  unfold spikeDir normalize3
  rw [norm3_spiralPoint count i h2 hi]
  rw [if_neg one_ne_zero]
  simp

theorem dist3_pos (v w : ℝ × ℝ × ℝ) (h : v ≠ w) : 0 < dist3 v w := by
  unfold dist3 norm3
  refine Real.sqrt_pos.mpr ?_
  have hs : 0 ≤ (v.1 - w.1) ^ 2 + (v.2.1 - w.2.1) ^ 2 + (v.2.2 - w.2.2) ^ 2 := by
    positivity
  rcases eq_or_lt_of_le hs with heq | hlt
  · exfalso
    apply h
    have h1 : v.1 = w.1 := by
      nlinarith [sq_nonneg (v.1 - w.1), sq_nonneg (v.2.1 - w.2.1),
        sq_nonneg (v.2.2 - w.2.2)]
    have h2 : v.2.1 = w.2.1 := by
      nlinarith [sq_nonneg (v.1 - w.1), sq_nonneg (v.2.1 - w.2.1),
        sq_nonneg (v.2.2 - w.2.2)]
    have h3 : v.2.2 = w.2.2 := by
      nlinarith [sq_nonneg (v.1 - w.1), sq_nonneg (v.2.1 - w.2.1),
        sq_nonneg (v.2.2 - w.2.2)]
    exact Prod.ext h1 (Prod.ext h2 h3)
  · exact hlt

/-- Distinct indices give distinct directions: the second coordinate
`1 - 2 i / (count - 1)` is strictly injective in `i`. -/
theorem spikeDir_inj (count i j : ℕ) (h2 : 2 ≤ count) (hi : i < count)
    (hj : j < count) (heq : spikeDir count i = spikeDir count j) : i = j := by
  rw [spikeDir_eq_spiralPoint count i h2 hi,
    spikeDir_eq_spiralPoint count j h2 hj] at heq
  have hy : spikeY count i = spikeY count j := congrArg (fun v => v.2.1) heq
  have hc : (2 : ℝ) ≤ (count : ℝ) := by exact_mod_cast h2
  have hpos : (0 : ℝ) < (count : ℝ) - 1 := by linarith
  unfold spikeY at hy
  have hne : ((count : ℝ) - 1) ≠ 0 := ne_of_gt hpos
  have hq : (i : ℝ) / ((count : ℝ) - 1) = (j : ℝ) / ((count : ℝ) - 1) := by
    linarith
  rw [div_eq_div_iff hne hne] at hq
  have hij : (i : ℝ) = (j : ℝ) := mul_right_cancel₀ hne hq
  exact_mod_cast hij

/-- The displaced surface radius is strictly positive: the displacement is
at least `-0.18`. -/
theorem surfaceRadiusAt_pos (count i : ℕ) : 0 < surfaceRadiusAt count i := by
  unfold surfaceRadiusAt getRuggedDisplacement
  have hs1 := Real.neg_one_le_sin (spikeTheta i * 5)
  have hs2 := Real.sin_le_one (spikeTheta i * 5)
  have hc1 := Real.neg_one_le_cos (spikePhi count i * 5)
  have hc2 := Real.cos_le_one (spikePhi count i * 5)
  have hd1 := Real.neg_one_le_cos (spikeTheta i * 20 + spikePhi count i * 10)
  have hd2 := Real.cos_le_one (spikeTheta i * 20 + spikePhi count i * 10)
  have hsc : -1 ≤ Real.sin (spikeTheta i * 5) * Real.cos (spikePhi count i * 5) := by
    nlinarith [mul_nonneg (by linarith : (0 : ℝ) ≤ 1 + Real.sin (spikeTheta i * 5))
        (by linarith : (0 : ℝ) ≤ 1 + Real.cos (spikePhi count i * 5)),
      mul_nonneg (by linarith : (0 : ℝ) ≤ 1 - Real.sin (spikeTheta i * 5))
        (by linarith : (0 : ℝ) ≤ 1 - Real.cos (spikePhi count i * 5))]
  nlinarith [hsc, hd1]

/-- The base position of the displaced-surface variant has length exactly
`surfaceRadius = 1 + displacement`. -/
theorem norm3_spikeBasePos (count i : ℕ) (h2 : 2 ≤ count) (hi : i < count) :
    norm3 (spikeBasePos count i) = surfaceRadiusAt count i := by
  have hsum := spiralPoint_sq_sum count i h2 hi
  have hpos := surfaceRadiusAt_pos count i
  show Real.sqrt
      ((surfaceRadiusAt count i * Real.cos (spikeTheta i) * spikeRadiusAtY count i) ^ 2
        + (spikeY count i * surfaceRadiusAt count i) ^ 2
        + (surfaceRadiusAt count i * Real.sin (spikeTheta i) * spikeRadiusAtY count i) ^ 2)
      = surfaceRadiusAt count i
  have hfactor :
      (surfaceRadiusAt count i * Real.cos (spikeTheta i) * spikeRadiusAtY count i) ^ 2
        + (spikeY count i * surfaceRadiusAt count i) ^ 2
        + (surfaceRadiusAt count i * Real.sin (spikeTheta i) * spikeRadiusAtY count i) ^ 2
      = surfaceRadiusAt count i ^ 2
        * ((Real.cos (spikeTheta i) * spikeRadiusAtY count i) ^ 2
          + spikeY count i ^ 2
          + (Real.sin (spikeTheta i) * spikeRadiusAtY count i) ^ 2) := by
    ring
  have hsum' : (Real.cos (spikeTheta i) * spikeRadiusAtY count i) ^ 2
      + spikeY count i ^ 2
      + (Real.sin (spikeTheta i) * spikeRadiusAtY count i) ^ 2 = 1 := hsum
  rw [hfactor, hsum', mul_one]
  exact Real.sqrt_sq hpos.le

/-- **C5.** For every appendage count `N` in [6, 12] the placement is the
golden-angle spiral with no special case for any `N`:
(a) on every index the raw spiral point is already a unit vector, so the
normalized direction is exactly the formula's point;
(b) the `N` directions are pairwise distinct;
(c) they are separated by a positive minimum threshold (a positive lower
bound on the Euclidean distance of unit directions is equivalent to a
positive angular separation);
(d) the displaced-surface variant orients its spikes along the very same
directions, so a given `N` always yields the same direction set. -/
theorem spikePlacement_valid (count : ℕ) (h6 : 6 ≤ count) (h12 : count ≤ 12) :
    (∀ i, i < count →
      spikeDir count i = spiralPoint count i ∧ norm3 (spikeDir count i) = 1)
    ∧ (∀ i j, i < count → j < count → spikeDir count i = spikeDir count j → i = j)
    ∧ (∃ ε : ℝ, 0 < ε ∧ ∀ i j, i < count → j < count → i ≠ j →
        ε ≤ dist3 (spikeDir count i) (spikeDir count j))
    ∧ (∀ i, i < count → normalize3 (spikeBasePos count i) = spikeDir count i) := by
  have h2 : 2 ≤ count := le_trans (by norm_num) h6
  refine ⟨?_, ?_, ?_, ?_⟩
  · intro i hi
    refine ⟨spikeDir_eq_spiralPoint count i h2 hi, ?_⟩
    rw [spikeDir_eq_spiralPoint count i h2 hi]
    exact norm3_spiralPoint count i h2 hi
  · intro i j hi hj heq
    exact spikeDir_inj count i j h2 hi hj heq
  · have hne : ((Finset.range count ×ˢ Finset.range count).filter
        (fun p => p.1 ≠ p.2)).Nonempty := by
      refine ⟨(0, 1), ?_⟩
      simp only [Finset.mem_filter, Finset.mem_product, Finset.mem_range]
      refine ⟨⟨by omega, by omega⟩, by omega⟩
    obtain ⟨p0, hp0, hmin⟩ := Finset.exists_min_image
      ((Finset.range count ×ˢ Finset.range count).filter (fun p => p.1 ≠ p.2))
      (fun p => dist3 (spikeDir count p.1) (spikeDir count p.2)) hne
    simp only [Finset.mem_filter, Finset.mem_product, Finset.mem_range] at hp0
    refine ⟨dist3 (spikeDir count p0.1) (spikeDir count p0.2), ?_, ?_⟩
    · refine dist3_pos _ _ (fun hcontra => hp0.2 ?_)
      exact spikeDir_inj count p0.1 p0.2 h2 hp0.1.1 hp0.1.2 hcontra
    · intro i j hi hj hij
      have hmem : (i, j) ∈ (Finset.range count ×ˢ Finset.range count).filter
          (fun p => p.1 ≠ p.2) := by
        simp only [Finset.mem_filter, Finset.mem_product, Finset.mem_range]
        exact ⟨⟨hi, hj⟩, hij⟩
      exact hmin (i, j) hmem
  · intro i hi
    have hnb := norm3_spikeBasePos count i h2 hi
    have hpos := surfaceRadiusAt_pos count i
    have hne0 : norm3 (spikeBasePos count i) ≠ 0 := by
      rw [hnb]; exact ne_of_gt hpos
    rw [spikeDir_eq_spiralPoint count i h2 hi]
    unfold normalize3
    rw [if_neg hne0, hnb]
    unfold spikeBasePos spiralPoint
    have hsr : surfaceRadiusAt count i ≠ 0 := ne_of_gt hpos
    refine Prod.ext ?_ (Prod.ext ?_ ?_)
    · show surfaceRadiusAt count i * Real.cos (spikeTheta i) * spikeRadiusAtY count i
          / surfaceRadiusAt count i = Real.cos (spikeTheta i) * spikeRadiusAtY count i
      field_simp
      ring
    · show spikeY count i * surfaceRadiusAt count i / surfaceRadiusAt count i
          = spikeY count i
      field_simp
    · show surfaceRadiusAt count i * Real.sin (spikeTheta i) * spikeRadiusAtY count i
          / surfaceRadiusAt count i = Real.sin (spikeTheta i) * spikeRadiusAtY count i
      field_simp
      ring

theorem spikePlacement_valid_witness :
    ((6 : ℕ) ≤ 6 ∧ (6 : ℕ) ≤ 12)
    ∧ (∀ i j, i < 6 → j < 6 → spikeDir 6 i = spikeDir 6 j → i = j) :=
  ⟨⟨by decide, by decide⟩, (spikePlacement_valid 6 (by decide) (by decide)).2.1⟩

/-- **C8 (amended).** In the displaced-surface `ParticleSpikes`
(`src/components/Virus3D.tsx` lines 205–231) every appendage base position
lies exactly on the displaced surface: its distance from the origin is
`1 + getRuggedDisplacement(θ, φ)`.  The normalized variant (lines 549–567)
instead places every base on the mathematically perfect unit sphere
(length 1) — see the counterexample. -/
theorem spikeBase_on_displaced_surface (count i : ℕ) (h6 : 6 ≤ count)
    (h12 : count ≤ 12) (hi : i < count) :
    norm3 (spikeBasePos count i)
      = 1 + getRuggedDisplacement (spikeTheta i) (spikePhi count i)
    ∧ norm3 (spikeDir count i) = 1 := by
  have h2 : 2 ≤ count := le_trans (by norm_num) h6
  constructor
  · have hb := norm3_spikeBasePos count i h2 hi
    rwa [surfaceRadiusAt] at hb
  · rw [spikeDir_eq_spiralPoint count i h2 hi]
    exact norm3_spiralPoint count i h2 hi

theorem spikeBase_on_displaced_surface_witness :
    ((6 : ℕ) ≤ 6 ∧ (6 : ℕ) ≤ 12 ∧ (0 : ℕ) < 6)
    ∧ norm3 (spikeBasePos 6 0)
        = 1 + getRuggedDisplacement (spikeTheta 0) (spikePhi 6 0) :=
  ⟨⟨by decide, by decide, by decide⟩,
   (spikeBase_on_displaced_surface 6 0 (by decide) (by decide) (by decide)).1⟩

/-- **C8 (counterexample).** In the normalized spike variant the first
appendage of a 6-spike organism sits at distance exactly 1 from the origin,
while the displaced surface in its direction has radius `1.03`
(the displacement at `θ = 0, φ = 0` is `0.03`): that base therefore lies on
the perfect unit sphere and *not* on the displaced surface. -/
theorem spikeBase_unit_counterexample :
    norm3 (spikeDir 6 0) = 1
    ∧ 1 + getRuggedDisplacement (spikeTheta 0) (spikePhi 6 0) = 103 / 100
    ∧ norm3 (spikeDir 6 0) ≠ 1 + getRuggedDisplacement (spikeTheta 0) (spikePhi 6 0) := by
  have h0 : spikeTheta 0 = 0 := by
    unfold spikeTheta
    simp
  have hy : spikeY 6 0 = 1 := by
    unfold spikeY
    norm_num
  have hphi : spikePhi 6 0 = 0 := by
    unfold spikePhi
    rw [hy]
    exact Real.arccos_one
  have hd : getRuggedDisplacement (spikeTheta 0) (spikePhi 6 0) = 3 / 100 := by
    rw [h0, hphi]
    unfold getRuggedDisplacement
    norm_num [Real.sin_zero, Real.cos_zero]
  have h1 : norm3 (spikeDir 6 0) = 1 := by
    rw [spikeDir_eq_spiralPoint 6 0 (by norm_num) (by norm_num)]
    exact norm3_spiralPoint 6 0 (by norm_num) (by norm_num)
  refine ⟨h1, by rw [hd]; norm_num, ?_⟩
  rw [h1, hd]
  norm_num

/-- **C7 (amended).** Both palette functions are pure in (hue, alignment):
ids with the same hue and alignment always receive identical palettes, so
the palette never depends on the id directly.  In the lore renderer
(`src/unnamed/part_004`) the two alignments do use structurally different
color formulas — at every hue the Symbiotic and Parasitic records differ
(the body is `hsl(hue, 60%, 45%)` against `hsl(hue, 50%, 20%)`), and both
branches are parameterized by the hue and its complement
`(hue + 180) % 360` (the Symbiotic core and the Parasitic tips).  In the
particle renderer (`getPalette` of `src/components/Virus3D.tsx`), however,
the two alignments share identical color formulas and differ only in
opacity (1 against 0.9) — see the counterexample. -/
theorem getPalette_amended (hue id₁ id₂ : ℕ)
    (hhue : (deriveTraits id₁).hue = (deriveTraits id₂).hue)
    (halign : (deriveTraits id₁).alignIdx = (deriveTraits id₂).alignIdx) :
    getPaletteParticle (deriveTraits id₁).hue (alignmentName (deriveTraits id₁).alignIdx)
      = getPaletteParticle (deriveTraits id₂).hue (alignmentName (deriveTraits id₂).alignIdx)
    ∧ getPaletteLore (deriveTraits id₁).hue (alignmentName (deriveTraits id₁).alignIdx)
      = getPaletteLore (deriveTraits id₂).hue (alignmentName (deriveTraits id₂).alignIdx)
    ∧ getPaletteLore hue "Symbiotic" ≠ getPaletteLore hue "Parasitic"
    ∧ (getPaletteLore hue "Symbiotic").core.hue = (hue + 180) % 360
    ∧ (getPaletteLore hue "Parasitic").tips.hue = (hue + 180) % 360
    ∧ (getPaletteParticle hue "Symbiotic").secondary.hue = (hue + 180) % 360
    ∧ (getPaletteParticle hue "Symbiotic").primary
        = (getPaletteParticle hue "Parasitic").primary
    ∧ (getPaletteParticle hue "Symbiotic").primaryGlow
        = (getPaletteParticle hue "Parasitic").primaryGlow
    ∧ (getPaletteParticle hue "Symbiotic").secondary
        = (getPaletteParticle hue "Parasitic").secondary
    ∧ (getPaletteParticle hue "Symbiotic").opacity
        ≠ (getPaletteParticle hue "Parasitic").opacity := by
  have hS : getPaletteLore hue "Symbiotic"
      = { body := ⟨hue, 60, 45⟩, veins := ⟨hue, 90, 65⟩
          core := ⟨(hue + 180) % 360, 100, 85⟩, spikes := ⟨hue, 50, 30⟩
          tips := ⟨(hue + 40) % 360, 90, 60⟩, aura := ⟨hue, 80, 50⟩ } := by
    rw [getPaletteLore, if_pos rfl]
  have hP : getPaletteLore hue "Parasitic"
      = { body := ⟨hue, 50, 20⟩, veins := ⟨(hue + 300) % 360, 100, 50⟩
          core := ⟨hue, 100, 50⟩, spikes := ⟨hue, 20, 10⟩
          tips := ⟨(hue + 180) % 360, 100, 50⟩, aura := ⟨(hue + 320) % 360, 90, 40⟩ } := by
    rw [getPaletteLore, if_neg (by decide)]
  have hop1 : (getPaletteParticle hue "Symbiotic").opacity = 9 / 10 := by
    show (if ("Symbiotic" : String) = "Parasitic" then (1 : ℚ) else 9 / 10) = 9 / 10
    rw [if_neg (by decide)]
  have hop2 : (getPaletteParticle hue "Parasitic").opacity = 1 := by
    show (if ("Parasitic" : String) = "Parasitic" then (1 : ℚ) else 9 / 10) = 1
    rw [if_pos rfl]
  refine ⟨by rw [hhue, halign], by rw [hhue, halign], ?_, ?_, ?_, rfl, rfl, rfl, rfl, ?_⟩
  · rw [hS, hP]
    intro hcontra
    have hsat := congrArg (fun p => p.body.sat) hcontra
    simp at hsat
  · rw [hS]
  · rw [hP]
  · rw [hop1, hop2]
    norm_num

theorem getPalette_amended_witness :
    ((deriveTraits 0).hue = (deriveTraits 0).hue
      ∧ (deriveTraits 0).alignIdx = (deriveTraits 0).alignIdx)
    ∧ getPaletteLore 0 "Symbiotic" ≠ getPaletteLore 0 "Parasitic" :=
  ⟨⟨rfl, rfl⟩, (getPalette_amended 0 0 0 rfl rfl).2.2.1⟩

/-- **C7 (counterexample).** In the particle renderer's `getPalette`
(`src/components/Virus3D.tsx` lines 24–34) the two alignments do *not* use
structurally different color formulas: at hue 0 the Symbiotic and Parasitic
palettes have identical primary, primaryGlow and secondary colors and
differ only in opacity. -/
theorem getPaletteParticle_counterexample :
    (getPaletteParticle 0 "Symbiotic").primary
      = (getPaletteParticle 0 "Parasitic").primary
    ∧ (getPaletteParticle 0 "Symbiotic").primaryGlow
      = (getPaletteParticle 0 "Parasitic").primaryGlow
    ∧ (getPaletteParticle 0 "Symbiotic").secondary
      = (getPaletteParticle 0 "Parasitic").secondary
    ∧ getPaletteParticle 0 "Symbiotic" ≠ getPaletteParticle 0 "Parasitic" := by
  refine ⟨rfl, rfl, rfl, ?_⟩
  intro hcontra
  have hop := congrArg (fun p => p.opacity) hcontra
  have hop1 : (getPaletteParticle 0 "Symbiotic").opacity = 9 / 10 := by
    show (if ("Symbiotic" : String) = "Parasitic" then (1 : ℚ) else 9 / 10) = 9 / 10
    rw [if_neg (by decide)]
  have hop2 : (getPaletteParticle 0 "Parasitic").opacity = 1 := by
    show (if ("Parasitic" : String) = "Parasitic" then (1 : ℚ) else 9 / 10) = 1
    rw [if_pos rfl]
  rw [show (fun p : ParticlePalette => p.opacity) (getPaletteParticle 0 "Symbiotic")
      = (getPaletteParticle 0 "Symbiotic").opacity from rfl,
    show (fun p : ParticlePalette => p.opacity) (getPaletteParticle 0 "Parasitic")
      = (getPaletteParticle 0 "Parasitic").opacity from rfl,
    hop1, hop2] at hop
  norm_num at hop

/-! ## The token-URI decoders -/

/-- A string without the separator is returned whole by `split`. -/
theorem splitOnChar_of_not_mem (sep : Char) (cs : List Char) (h : sep ∉ cs) :
    splitOnChar sep cs = [cs] := by
  induction cs with
  | nil => rfl
  | cons c rest ih =>
    have hc : ¬ c = sep := fun hcs => h (hcs ▸ List.mem_cons_self c rest)
    have hrest : sep ∉ rest := fun hm => h (List.mem_cons_of_mem c hm)
    rw [splitOnChar]
    simp only [ih hrest, if_neg hc]

/-- Without a comma, `split(',')[1]` is `undefined`, which `atob` coerces
to the string `"undefined"`. -/
theorem uriSegment_of_no_comma (uri : String) (h : ',' ∉ uri.toList) :
    uriSegment uri = "undefined".toList := by
  unfold uriSegment
  rw [splitOnChar_of_not_mem ',' uri.toList h]
  rfl

/-- `atob("undefined")` throws: nine characters is length 1 (mod 4). -/
theorem atobBytes_undefined : atobBytes ("undefined".toList) = .error () := rfl

/-- **C10.** Both token-URI image decoders are total and never throw: every
exception of the inner pipeline is caught, and the result is either the
pipeline's value or the catch default (`""` for `decodeTokenUri`, `null`
for `decodeTokenImage`).  A uri without a comma, one whose second segment
is not valid base64, and one whose decoded bytes are not valid JSON all
make the pipeline throw, so both decoders return their defaults instead of
raising; and on a well-formed base64-encoded JSON data URI whose object
carries a string `image` field, both return exactly that image string. -/
theorem decodeTokenUri_total_spec (uri : String) :
    (∀ v, decodeTokenUriCore uri = .ok v →
      decodeTokenUri uri = v ∧ decodeTokenImage uri = v)
    ∧ (decodeTokenUriCore uri = .error () →
      decodeTokenUri uri = .val (.str "") ∧ decodeTokenImage uri = .val .null)
    ∧ (',' ∉ uri.toList → decodeTokenUriCore uri = .error ())
    ∧ (atobBytes (uriSegment uri) = .error () → decodeTokenUriCore uri = .error ())
    ∧ (∀ bs, atobBytes (uriSegment uri) = .ok bs →
      jsonParse (bytesToChars bs) = none → decodeTokenUriCore uri = .error ())
    ∧ (∀ bs fields s, atobBytes (uriSegment uri) = .ok bs →
      jsonParse (bytesToChars bs) = some (.obj fields) →
      jsonLookup fields "image" = .val (.str s) →
      decodeTokenUri uri = .val (.str s) ∧ decodeTokenImage uri = .val (.str s)) := by
  refine ⟨?_, ?_, ?_, ?_, ?_, ?_⟩
  · intro v h
    constructor
    · rw [decodeTokenUri, h]
    · rw [decodeTokenImage, h]
  · intro h
    constructor
    · rw [decodeTokenUri, h]
    · rw [decodeTokenImage, h]
  · intro h
    rw [decodeTokenUriCore, uriSegment_of_no_comma uri h, atobBytes_undefined,
      exBind_error]
  · intro h
    rw [decodeTokenUriCore, h, exBind_error]
  · intro bs h1 h2
    rw [decodeTokenUriCore, h1, exBind_ok, h2, jsonOrThrow, exBind_error]
  · intro bs fields s h1 h2 h3
    have hcore : decodeTokenUriCore uri = .ok (.val (.str s)) := by
      rw [decodeTokenUriCore, h1, exBind_ok, h2, jsonOrThrow, exBind_ok]
      show getImage (.obj fields) = .ok (.val (.str s))
      rw [getImage, h3]
    constructor
    · rw [decodeTokenUri, hcore]
    · rw [decodeTokenImage, hcore]

theorem decodeTokenUri_total_spec_witness :
    (atobBytes (uriSegment "data:application/json;base64,eyJpbWFnZSI6ImkifQ==")
        = .ok (strBytes "\x7b\"image\":\"i\"\x7d")
      ∧ jsonParse (bytesToChars (strBytes "\x7b\"image\":\"i\"\x7d"))
        = some (.obj [("image", .str "i")])
      ∧ jsonLookup [("image", Json.str "i")] "image" = .val (.str "i")
      ∧ ',' ∉ "no-comma-uri".toList)
    ∧ decodeTokenUri "data:application/json;base64,eyJpbWFnZSI6ImkifQ=="
        = .val (.str "i")
    ∧ decodeTokenImage "data:application/json;base64,eyJpbWFnZSI6ImkifQ=="
        = .val (.str "i")
    ∧ decodeTokenUriCore "no-comma-uri" = .error () :=
  ⟨⟨rfl, rfl, rfl, by decide⟩,
   ((decodeTokenUri_total_spec "data:application/json;base64,eyJpbWFnZSI6ImkifQ==").2.2.2.2.2 (strBytes "\x7b\"image\":\"i\"\x7d")
     [("image", Json.str "i")] "i" rfl rfl rfl).1,
   ((decodeTokenUri_total_spec "data:application/json;base64,eyJpbWFnZSI6ImkifQ==").2.2.2.2.2 (strBytes "\x7b\"image\":\"i\"\x7d")
     [("image", Json.str "i")] "i" rfl rfl rfl).2,
   (decodeTokenUri_total_spec "no-comma-uri").2.2.1 (by decide)⟩

/-! ## Golden vectors

The Keccak-256 implementation above is pinned to the standard function by
the two classical test vectors (the well-known digest of the empty string —
Ethereum's empty hash — and of `"abc"`), and the trait pipeline is pinned
by the derived trait values of token id 42. -/

set_option maxRecDepth 100000 in
theorem keccak256_empty_vector :
    keccak256 []
      = 0xc5d2460186f7233c927e7db2dcc703c0e500b653ca82273b7bfad8045d85a470 := by
  decide

set_option maxRecDepth 100000 in
theorem keccak256_abc_vector :
    keccak256 [0x61, 0x62, 0x63]
      = 0x4e03657aea45a94fc7d47ba826c8d667c0d1e6e33a64a036ec44f58fa12d6c45 := by
  decide

set_option maxRecDepth 100000 in
theorem deriveTraits_goldenVector :
    (deriveTraits 42).hue = 8
    ∧ (deriveTraits 42).spikeCount = 7
    ∧ (deriveTraits 42).alignIdx = 1
    ∧ (deriveTraits 42).mutIdx = 1 := by
  decide
